import Mathlib

/-!
Shallow embedding of the benchmark execution engine of the `bench` repository
(github.com/thiagonache/bench).

The repository contains several iterations of the same load-testing tool.
The embedding below follows the final `package bench` iteration in
`src/bench.go` (the document containing `CalculatePercentiles`,
`CompareStats`, `ReadStats`, `Stats.String`), which is the version all claim
line numbers refer to.  Where a claim also cites an earlier iteration
(`src/simplebench.go` lines 186-212, `src/unnamed/part_004`), that iteration
is embedded separately under its own name.

Modelling conventions:
* Go `float64` latency values and percentile arithmetic are modelled with `ℚ`
  (exact rational arithmetic); `math.Round` (round half away from zero) is
  `goRound` below.
* Go `int` fields are modelled with `ℤ`, Go `uint64` counters of earlier
  iterations with the same `ℤ`-valued state (they are only ever incremented
  here, so no wraparound can occur in any reachable state).
* Go strings are Lean `String`/`List Char`; the persisted stats format works
  on `List Char` so that splitting and joining are plain structural
  recursion, exactly mirroring `strings.Split` and line scanning.
* The HTTP transport is the environment: one attempt's observable behaviour
  is a value of `HTTPResult` (request-construction failure, transport error,
  or a response with a status code), plus the measured elapsed time in
  milliseconds.  `DoRequest` is embedded as a state transformer over that
  input, which is exactly the structure of the Go code once the real network
  call is abstracted into its outcome.
-/

namespace Bench

/-- Go `math.Round`: round to nearest, ties away from zero
(`src/bench.go` uses it at lines 701-705 via `math.Round`). -/
def goRound (q : ℚ) : ℤ := if 0 ≤ q then ⌊q + 1/2⌋ else -⌊-q + 1/2⌋

/-- Stats struct of the final iteration (`src/bench.go` lines 711-719):
URL, P50/P90/P99 in milliseconds (float64, modelled as `ℚ`) and the three
`int` outcome counters. -/
structure Stats where
  URL : String
  P50 : ℚ
  P90 : ℚ
  P99 : ℚ
  Failures : ℤ
  Requests : ℤ
  Successes : ℤ
deriving Repr, DecidableEq

/-- The zero value `Stats{}` a fresh `Tester` starts with. -/
def zeroStats : Stats := ⟨"", 0, 0, 0, 0, 0, 0⟩

/-- Percentile index used by `CalculatePercentiles` (`src/bench.go`
lines 701-705): `int(math.Round(float64(len(times))*p)) - 1`.
The float multiplication is modelled exactly on `ℚ`. -/
def pIdx (n : ℕ) (p : ℚ) : ℤ := goRound ((n : ℚ) * p) - 1

/-- Embedding of `Tester.CalculatePercentiles` (`src/bench.go` lines
693-708).  The Go method sorts `t.TimeRecorder.ExecutionsTime` in place
(`sort.Slice` ascending) and writes `P50`, `P90`, `P99` and `URL` into
`t.stats`; the function returns the new contents of the slice together with
the new stats, making the in-place mutation explicit.  On an empty sample
list it returns immediately, leaving everything unchanged (and surfacing no
error).  Indexing `times[idx]` is modelled with `getD _ _ 0`; the theorem
for the safety claim shows the index is always in range, so the default is
never consulted on the code's own indices. -/
def calculatePercentiles (url : String) (times : List ℚ) (stats : Stats) :
    List ℚ × Stats :=
  if times.length < 1 then (times, stats)
  else
    let sorted := times.insertionSort (· ≤ ·)
    (sorted,
      { stats with
        P50 := sorted.getD (pIdx times.length (1/2)).toNat 0
        P90 := sorted.getD (pIdx times.length (9/10)).toNat 0
        P99 := sorted.getD (pIdx times.length (99/100)).toNat 0
        URL := url })

/-- Observable behaviour of the environment (HTTP stack plus target server)
for one request attempt: `http.NewRequest` failed; `client.Do` returned an
error after `elapsedMs` milliseconds; or a response with the given status
code arrived after `elapsedMs` milliseconds. -/
inductive HTTPResult where
  | buildErr : HTTPResult
  | transportErr (elapsedMs : ℚ) : HTTPResult
  | response (status : ℤ) (elapsedMs : ℚ) : HTTPResult
deriving Repr, DecidableEq

/-- Mutable state of a `Tester` as seen by the request executor: the outcome
counters inside `t.stats` and the latency recorder slice
`t.TimeRecorder.ExecutionsTime`. -/
structure TesterState where
  stats : Stats
  executionsTime : List ℚ
deriving Repr, DecidableEq

/-- Fresh tester state: `Stats{}` and an empty `ExecutionsTime` slice. -/
def initTester : TesterState := ⟨zeroStats, []⟩

/-- One iteration of the work loop inside the final `Tester.DoRequest`
(`src/bench.go` lines 549-576).  Every path first runs `RecordRequest`.
A construction failure records a failure and leaves the loop; a transport
error records a failure and leaves the loop WITHOUT recording the measured
elapsed time (`RecordTime` at line 568 runs only after the `err != nil`
check at lines 563-567); a response records the elapsed time, then either a
failure (status not 200, leaving the loop) or a success (continuing the
loop).  The returned `Bool` is whether the worker keeps consuming work
(`true`) or executes the `return` statement (`false`). -/
def doRequestStep (r : HTTPResult) (t : TesterState) : TesterState × Bool :=
  let t := { t with stats := { t.stats with Requests := t.stats.Requests + 1 } }
  match r with
  | .buildErr =>
      ({ t with stats := { t.stats with Failures := t.stats.Failures + 1 } }, false)
  | .transportErr _ =>
      ({ t with stats := { t.stats with Failures := t.stats.Failures + 1 } }, false)
  | .response code elapsed =>
      let t := { t with executionsTime := t.executionsTime ++ [elapsed] }
      if code ≠ 200 then
        ({ t with stats := { t.stats with Failures := t.stats.Failures + 1 } }, false)
      else
        ({ t with stats := { t.stats with Successes := t.stats.Successes + 1 } }, true)

/-- The whole worker loop `for range t.work` of the final `Tester.DoRequest`
(`src/bench.go` lines 550-575), consuming the queued work units whose
environment behaviours are listed in order: the worker processes units until
the channel is exhausted or until a unit makes the body execute `return`
(which exits the entire loop, not just the iteration). -/
def doRequest : List HTTPResult → TesterState → TesterState
  | [], t => t
  | r :: rs, t =>
      let s := doRequestStep r t
      if s.2 then doRequest rs s.1 else s.1

/-- Fold of completed request attempts, in the order their (atomic) counter
updates took effect.  Any concurrent interleaving of the per-attempt atomic
increments performed by `RecordRequest`/`RecordSuccess`/`RecordFailure` and
the mutex-guarded `RecordTime` is equivalent to some such sequence. -/
def recordOutcomes (rs : List HTTPResult) (t : TesterState) : TesterState :=
  rs.foldl (fun t r => (doRequestStep r t).1) t

/-- Embedding of the earlier iteration's `Tester.DoRequest`
(`src/simplebench.go` lines 186-212, `package bench`): one request per call.
There `RecordTime(elapsedTime)` at line 200 runs BEFORE the `err != nil`
check at line 201, so a transport error still appends the measured
time-to-failure.  Its recorder lives at `lg.stats.ExecutionsTime`; the state
shape is shared with the final iteration. -/
def doRequestSB (r : HTTPResult) (t : TesterState) : TesterState :=
  let t := { t with stats := { t.stats with Requests := t.stats.Requests + 1 } }
  match r with
  | .buildErr =>
      { t with stats := { t.stats with Failures := t.stats.Failures + 1 } }
  | .transportErr elapsed =>
      let t := { t with executionsTime := t.executionsTime ++ [elapsed] }
      { t with stats := { t.stats with Failures := t.stats.Failures + 1 } }
  | .response code elapsed =>
      let t := { t with executionsTime := t.executionsTime ++ [elapsed] }
      if code ≠ 200 then
        { t with stats := { t.stats with Failures := t.stats.Failures + 1 } }
      else
        { t with stats := { t.stats with Successes := t.stats.Successes + 1 } }

/-- Stats struct of the `src/unnamed/part_004` iteration (lines 277-286):
uint64 counters and float64 metrics including the 90th/99th percentiles,
fastest, slowest and mean. -/
structure StatsP4 where
  Failures : ℤ
  Fastest : ℚ
  Mean : ℚ
  Perc90 : ℚ
  Perc99 : ℚ
  Requests : ℤ
  Slowest : ℚ
  Successes : ℤ
deriving Repr, DecidableEq

/-- The zero value `Stats{}` of the part_004 iteration. -/
def zeroStatsP4 : StatsP4 := ⟨0, 0, 0, 0, 0, 0, 0, 0⟩

/-- Helper for the min/max/total loop of `SetMetrics`
(`src/unnamed/part_004` lines 258-272): state is
(fastest, slowest, totalTime, nreq); the body adds `v` to the total, then
updates fastest (with `continue`, so slowest is not compared on that
branch) or slowest. -/
def setMetricsLoop (acc : ℚ × ℚ × ℚ × ℚ) (v : ℚ) : ℚ × ℚ × ℚ × ℚ :=
  let fastest := acc.1
  let slowest := acc.2.1
  let total := acc.2.2.1
  let nreq := acc.2.2.2
  if v < fastest then (v, slowest, total + v, nreq + 1)
  else if slowest < v then (fastest, v, total + v, nreq + 1)
  else (fastest, slowest, total + v, nreq + 1)

/-- Embedding of `Tester.SetMetrics` (`src/unnamed/part_004` lines 245-275):
on an empty sample list it returns the error `ErrTimeNotRecorded`
("no execution time recorded"); otherwise it sorts the samples in place,
picks the 90th/99th nearest-rank percentiles with the same
`round(n*p) - 1` index formula, and computes fastest/slowest/mean in one
scan.  Returns the sorted slice and updated stats. -/
def setMetrics (times : List ℚ) (stats : StatsP4) :
    Except String (List ℚ × StatsP4) :=
  if times.length < 1 then .error "no execution time recorded"
  else
    let sorted := times.insertionSort (· ≤ ·)
    let s1 := { stats with Perc90 := sorted.getD (pIdx times.length (9/10)).toNat 0 }
    let s2 := { s1 with Perc99 := sorted.getD (pIdx times.length (99/100)).toNat 0 }
    let first := sorted.getD 0 0
    let res := sorted.foldl setMetricsLoop (first, first, 0, 0)
    .ok (sorted, { s2 with Fastest := res.1, Slowest := res.2.1,
                           Mean := res.2.2.1 / res.2.2.2 })

/-- Per-metric delta and percentage computed by `CompareStats.String`
(`src/bench.go` lines 832-845): for each of P50, P90, P99 it computes
`delta = S2.metric - S1.metric` and prints
`delta / S1.metric * 100` as the percentage. -/
def compareDeltas (s1 s2 : Stats) : List (ℚ × ℚ) :=
  [ (s2.P50 - s1.P50, (s2.P50 - s1.P50) / s1.P50 * 100),
    (s2.P90 - s1.P90, (s2.P90 - s1.P90) / s1.P90 * 100),
    (s2.P99 - s1.P99, (s2.P99 - s1.P99) / s1.P99 * 100) ]

/-- Rounding to 2 decimal places, as the `%.2f` verbs at
`src/bench.go` lines 838-842 display the percentage (none of the displayed
values here sits on a rounding tie, so the tie-breaking rule is
irrelevant). -/
def round2 (q : ℚ) : ℚ := (goRound (q * 100) : ℚ) / 100

/-- Configuration as the final `NewTester` (`src/bench.go` lines 327-363)
sees it after the functional options ran: the `url.Parse` result of
`tester.URL` (its scheme and host), the request count, and whether a nil
writer was passed to `WithStdout` / `WithStderr` (lines 432-452). -/
structure Config where
  scheme : String
  host : String
  requests : ℤ
  stdoutNil : Bool
  stderrNil : Bool
deriving Repr, DecidableEq

/-- Embedding of the validation performed by the final `NewTester`
(`src/bench.go` lines 327-363) together with the nil-writer checks of
`WithStdout`/`WithStderr` (lines 432-452), which run while the options are
applied, before the URL and request-count checks.  The second component
counts the transport calls (`client.Do` invocations) the constructor
performs: the Go constructor contains none, so it is 0 on every path.
Note the code checks only `u.Host == ""` (line 355); the parsed scheme is
never consulted. -/
def newTesterCheck (c : Config) : Except String Unit × ℕ :=
  if c.stdoutNil then (.error "value cannot be nil", 0)
  else if c.stderrNil then (.error "value cannot be nil", 0)
  else if c.host = "" then (.error "invalid URL", 0)
  else if c.requests < 1 then (.error "invalid number of requests", 0)
  else (.ok (), 0)

/-- Model of Go `strings.Split(text, c)` on strings as `List Char`: splits
at every occurrence of the separator. -/
def splitChar (c : Char) : List Char → List (List Char)
  | [] => [[]]
  | x :: xs =>
      let r := splitChar c xs
      if x = c then [] :: r
      else
        match r with
        | [] => [[x]]
        | y :: ys => (x :: y) :: ys

/-- Model of joining pieces with a separator character, as the newline-joined
layout produced by the `Stats.String` format string. -/
def joinChar (c : Char) : List (List Char) → List Char
  | [] => []
  | [l] => l
  | l :: l' :: ls => l ++ c :: joinChar c (l' :: ls)

/-- ASCII digit character for a digit value below 10. -/
def digitChar (d : ℕ) : Char := Char.ofNat (48 + d)

/-- Decimal representation of a natural number, most significant digit
first, as Go's `%d` verb prints it (with `"0"` for zero). -/
def natToChars (n : ℕ) : List Char :=
  if n = 0 then ['0'] else ((Nat.digits 10 n).map digitChar).reverse

/-- Decimal digit-string evaluation: the core of Go `strconv.Atoi` on an
unsigned digit string (empty or non-digit input is rejected; overflow is
not modelled since `ℕ` is unbounded). -/
def charsToNat (cs : List Char) : Option ℕ :=
  if cs = [] then none
  else if cs.all Char.isDigit then
    some (cs.foldl (fun a c => 10 * a + (c.toNat - 48)) 0)
  else none

/-- Go `%d` on an `int`: optional minus sign followed by the decimal
digits of the absolute value. -/
def intToChars (i : ℤ) : List Char :=
  if i < 0 then '-' :: natToChars i.natAbs else natToChars i.toNat

/-- Model of `strconv.Atoi`: optional sign, then decimal digits. -/
def parseInt (cs : List Char) : Option ℤ :=
  match cs with
  | [] => none
  | c :: rest =>
      if c = '-' then (charsToNat rest).map (fun n : ℕ => -(n : ℤ))
      else if c = '+' then (charsToNat rest).map (fun n : ℕ => (n : ℤ))
      else (charsToNat (c :: rest)).map (fun n : ℕ => (n : ℤ))

/-- Rounding to 3 decimal places, the value a `%.3f`-printed float reads
back as. -/
def round3 (q : ℚ) : ℚ := (goRound (q * 1000) : ℚ) / 1000

/-- Left-pad a digit string with zeros to width 3 (the fractional part of
`%.3f` always has exactly three digits). -/
def padZeros3 (cs : List Char) : List Char :=
  List.replicate (3 - cs.length) '0' ++ cs

/-- Go `%.3f`: sign, integer part, point, exactly three fractional digits
of the value rounded to 3 decimals.  (Go rounds ties to even; `goRound`
rounds ties away from zero — a printed latency hitting an exact 0.0005 ms
tie is the only input on which the two differ.) -/
def fmtF3 (q : ℚ) : List Char :=
  let n := goRound (q * 1000)
  let a := n.natAbs
  (if n < 0 then ['-'] else [])
    ++ natToChars (a / 1000) ++ '.' :: padZeros3 (natToChars (a % 1000))

/-- Unsigned decimal fragment of `strconv.ParseFloat`: digits with an
optional single point. -/
def parseUnsignedF (cs : List Char) : Option ℚ :=
  match splitChar '.' cs with
  | [ip] => (charsToNat ip).map (fun n : ℕ => (n : ℚ))
  | [ip, fp] =>
      (charsToNat ip).bind fun i : ℕ =>
        (charsToNat fp).map fun f : ℕ =>
          (i : ℚ) + (f : ℚ) / (10 : ℚ) ^ fp.length
  | _ => none

/-- Signed decimal fragment of `strconv.ParseFloat` (the grammar subset
`Stats.String` emits; exponent/hex/inf forms never occur there). -/
def parseF3 (cs : List Char) : Option ℚ :=
  match cs with
  | [] => none
  | c :: rest =>
      if c = '-' then (parseUnsignedF rest).map (fun q => -q)
      else if c = '+' then parseUnsignedF rest
      else parseUnsignedF (c :: rest)

/-- Embedding of `Stats.String` (`src/bench.go` lines 722-731): the
persisted textual format, seven newline-separated `key value` lines. -/
def statsString (s : Stats) : List Char :=
  joinChar '\n'
    [ "Site:".toList ++ ' ' :: s.URL.toList,
      "Requests:".toList ++ ' ' :: intToChars s.Requests,
      "Successes:".toList ++ ' ' :: intToChars s.Successes,
      "Failures:".toList ++ ' ' :: intToChars s.Failures,
      "P50(ms):".toList ++ ' ' :: fmtF3 s.P50,
      "P90(ms):".toList ++ ' ' :: fmtF3 s.P90,
      "P99(ms):".toList ++ ' ' :: fmtF3 s.P99 ]

/-- Processing of one scanned line by `ReadStats` (`src/bench.go` lines
768-818): split on spaces, skip lines with fewer than two fields, dispatch
on the field name, reject unknown fields. -/
def readStatsLine (s : Stats) (line : List Char) : Except String Stats :=
  let pos := splitChar ' ' line
  if pos.length < 2 then .ok s
  else
    let field := pos.getD 0 []
    let value := pos.getD 1 []
    if field = "Site:".toList then .ok { s with URL := String.mk value }
    else if field = "Requests:".toList then
      match parseInt value with
      | some v => .ok { s with Requests := v }
      | none => .error "invalid integer"
    else if field = "Successes:".toList then
      match parseInt value with
      | some v => .ok { s with Successes := v }
      | none => .error "invalid integer"
    else if field = "Failures:".toList then
      match parseInt value with
      | some v => .ok { s with Failures := v }
      | none => .error "invalid integer"
    else if field = "P50(ms):".toList then
      match parseF3 value with
      | some v => .ok { s with P50 := v }
      | none => .error "invalid float"
    else if field = "P90(ms):".toList then
      match parseF3 value with
      | some v => .ok { s with P90 := v }
      | none => .error "invalid float"
    else if field = "P99(ms):".toList then
      match parseF3 value with
      | some v => .ok { s with P99 := v }
      | none => .error "invalid float"
    else .error "unknown statsfile format"

/-- Line loop of `ReadStats`, threading the partially filled record and
propagating the first error. -/
def readStatsLines : List (List Char) → Stats → Except String Stats
  | [], s => .ok s
  | l :: ls, s =>
      match readStatsLine s l with
      | .ok s' => readStatsLines ls s'
      | .error e => .error e

/-- Embedding of `ReadStats` (`src/bench.go` lines 765-824): scan the input
line by line (the model splits on the newline character; the `\r`-stripping
of `bufio.ScanLines` is not modelled, whence the `'\r'`-freedom hypothesis
of the round-trip theorem), starting from the zero record. -/
def readStats (input : List Char) : Except String Stats :=
  readStatsLines (splitChar '\n' input) zeroStats

/-- Helper: every path of one executor-loop iteration increments `Requests`
by exactly one and exactly one of `Successes`/`Failures` by exactly one
(the step lemma behind the outcome-counter invariant). -/
lemma doRequestStep_counts (r : HTTPResult) (u : TesterState) :
    (doRequestStep r u).1.stats.Requests = u.stats.Requests + 1 ∧
    (doRequestStep r u).1.stats.Successes + (doRequestStep r u).1.stats.Failures
      = u.stats.Successes + u.stats.Failures + 1 := by
  cases r with
  | buildErr => exact ⟨rfl, by simp [doRequestStep]; ring⟩
  | transportErr e => exact ⟨rfl, by simp [doRequestStep]; ring⟩
  | response code e =>
      by_cases h : code = 200 <;>
        simp [doRequestStep, h] <;> ring

/-- Helper: unfolding of `calculatePercentiles` on a non-empty sample
list. -/
lemma calcPerc_eq (url : String) (times : List ℚ) (stats : Stats)
    (h : times ≠ []) :
    calculatePercentiles url times stats
      = (times.insertionSort (· ≤ ·),
         { stats with
            P50 := (times.insertionSort (· ≤ ·)).getD
                     (pIdx times.length (1/2)).toNat 0
            P90 := (times.insertionSort (· ≤ ·)).getD
                     (pIdx times.length (9/10)).toNat 0
            P99 := (times.insertionSort (· ≤ ·)).getD
                     (pIdx times.length (99/100)).toNat 0
            URL := url }) := by
  have h1 : ¬ times.length < 1 := by
    simp [Nat.lt_one_iff, List.length_eq_zero, h]
  simp [calculatePercentiles, h1]

/-- Helper: the nearest-rank index `round(n*p) - 1` stays inside
`[0, n-1]` whenever `n ≥ 1` and `1/2 ≤ p ≤ 1`. -/
lemma pIdx_bounds {n : ℕ} {p : ℚ} (hn : 1 ≤ n) (hp₁ : 1/2 ≤ p)
    (hp₂ : p ≤ 1) : 0 ≤ pIdx n p ∧ pIdx n p ≤ (n : ℤ) - 1 := by
  have hn' : (1 : ℚ) ≤ (n : ℚ) := by exact_mod_cast hn
  have h0 : (0 : ℚ) ≤ (n : ℚ) * p := by nlinarith
  unfold pIdx goRound
  rw [if_pos h0]
  constructor
  · have hlb : (1 : ℚ) ≤ (n : ℚ) * p + 1/2 := by nlinarith
    have := Int.le_floor.mpr (by exact_mod_cast hlb :
      ((1 : ℤ) : ℚ) ≤ (n : ℚ) * p + 1/2)
    omega
  · have hub : (n : ℚ) * p + 1/2 < ((n : ℤ) + 1 : ℤ) := by
      push_cast
      nlinarith
    have := Int.floor_lt.mpr hub
    omega

/-- Helper: splitting a separator-free string yields a single piece. -/
lemma splitChar_not_mem {c : Char} {xs : List Char} (h : c ∉ xs) :
    splitChar c xs = [xs] := by
  induction xs with
  | nil => rfl
  | cons x xs ih =>
      have hx : ¬ x = c := fun hc => h (by rw [hc]; exact List.mem_cons_self c xs)
      have h' : c ∉ xs := fun hc => h (List.mem_cons_of_mem _ hc)
      simp only [splitChar, if_neg hx, ih h']

/-- Helper: splitting at the first separator occurrence peels off the
separator-free prefix. -/
lemma splitChar_append {c : Char} {xs ys : List Char} (h : c ∉ xs) :
    splitChar c (xs ++ c :: ys) = xs :: splitChar c ys := by
  induction xs with
  | nil => simp [splitChar]
  | cons x xs ih =>
      have hx : ¬ x = c := fun hc => h (by rw [hc]; exact List.mem_cons_self c xs)
      have h' : c ∉ xs := fun hc => h (List.mem_cons_of_mem _ hc)
      simp only [List.cons_append, splitChar, if_neg hx, List.append_eq, ih h']

/-- Helper: splitting after joining recovers the pieces, provided none of
them contains the separator. -/
lemma splitChar_joinChar {c : Char} : ∀ ls : List (List Char), ls ≠ [] →
    (∀ l ∈ ls, c ∉ l) → splitChar c (joinChar c ls) = ls
  | [], h, _ => absurd rfl h
  | [l], _, hl => by
      simp only [joinChar]
      exact splitChar_not_mem (hl l (by simp))
  | l :: l' :: ls, _, hl => by
      have h1 : c ∉ l := hl l (List.mem_cons_self _ _)
      have hrec := splitChar_joinChar (l' :: ls) (by simp)
        (fun x hx => hl x (List.mem_cons_of_mem _ hx))
      simp only [joinChar, splitChar_append h1, hrec]

/-- Helper: digit values below ten print as digit characters. -/
lemma digitChar_isDigit {d : ℕ} (h : d < 10) : (digitChar d).isDigit = true := by
  interval_cases d <;> decide

/-- Helper: code point of a printed digit. -/
lemma digitChar_toNat {d : ℕ} (h : d < 10) : (digitChar d).toNat = 48 + d := by
  interval_cases d <;> decide

/-- Helper: every character of a printed natural number is a digit. -/
lemma mem_natToChars_isDigit {ch : Char} {n : ℕ} (h : ch ∈ natToChars n) :
    ch.isDigit = true := by
  unfold natToChars at h
  by_cases h0 : n = 0
  · rw [if_pos h0] at h
    simp only [List.mem_singleton] at h
    rw [h]; decide
  · rw [if_neg h0, List.mem_reverse] at h
    obtain ⟨d, hd, rfl⟩ := List.mem_map.mp h
    exact digitChar_isDigit (Nat.digits_lt_base (by norm_num) hd)

/-- Helper: printed numbers are never empty. -/
lemma natToChars_ne_nil (n : ℕ) : natToChars n ≠ [] := by
  unfold natToChars
  by_cases h0 : n = 0
  · simp [h0]
  · rw [if_neg h0]
    simp [Nat.digits_ne_nil_iff_ne_zero.mpr h0]

/-- Helper: Horner evaluation of the reversed digit characters recovers
the number (`Nat.ofDigits` of the little-endian digits). -/
lemma foldl_digitChars (L : List ℕ) (hL : ∀ d ∈ L, d < 10) (acc : ℕ) :
    List.foldl (fun a ch => 10 * a + (ch.toNat - 48)) acc
      ((L.map digitChar).reverse)
      = acc * 10 ^ L.length + Nat.ofDigits 10 L := by
  induction L generalizing acc with
  | nil => simp
  | cons d T ih =>
      have hd : d < 10 := hL d (List.mem_cons_self _ _)
      have hT : ∀ x ∈ T, x < 10 := fun x hx => hL x (List.mem_cons_of_mem _ hx)
      simp only [List.map_cons, List.reverse_cons, List.foldl_append,
        List.foldl_cons, List.foldl_nil]
      rw [ih hT, digitChar_toNat hd, Nat.ofDigits_cons, List.length_cons]
      have hsub : 48 + d - 48 = d := by omega
      rw [hsub]
      ring

/-- Helper: evaluating the digit string of `n` gives back `n`. -/
lemma foldl_natToChars (n : ℕ) :
    (natToChars n).foldl (fun a ch => 10 * a + (ch.toNat - 48)) 0 = n := by
  unfold natToChars
  by_cases h0 : n = 0
  · rw [if_pos h0, h0]; decide
  · rw [if_neg h0]
    rw [foldl_digitChars _ (fun d hd => Nat.digits_lt_base (by norm_num) hd) 0]
    simp [Nat.ofDigits_digits]

/-- Helper: `Atoi`-style evaluation inverts `%d`-style printing of a
natural number. -/
lemma charsToNat_natToChars (n : ℕ) : charsToNat (natToChars n) = some n := by
  unfold charsToNat
  rw [if_neg (natToChars_ne_nil n)]
  have hall : (natToChars n).all Char.isDigit = true :=
    List.all_eq_true.mpr fun ch hch => mem_natToChars_isDigit hch
  rw [if_pos hall, foldl_natToChars]

/-- Helper: leading zeros do not change the evaluated value. -/
lemma foldl_replicate_zero (k : ℕ) :
    List.foldl (fun a ch => 10 * a + (ch.toNat - 48)) 0
      (List.replicate k '0') = 0 := by
  induction k with
  | zero => rfl
  | succ k ih =>
      rw [List.replicate_succ, List.foldl_cons]
      have : (10 * 0 + ('0'.toNat - 48)) = 0 := by decide
      rw [this, ih]

/-- Helper: evaluating the zero-padded digit string of `m` gives back
`m`. -/
lemma charsToNat_padZeros3 (m : ℕ) :
    charsToNat (padZeros3 (natToChars m)) = some m := by
  unfold charsToNat padZeros3
  have hne : List.replicate (3 - (natToChars m).length) '0' ++ natToChars m ≠ [] := by
    simp [natToChars_ne_nil m]
  rw [if_neg hne]
  have hall : (List.replicate (3 - (natToChars m).length) '0'
      ++ natToChars m).all Char.isDigit = true := by
    rw [List.all_eq_true]
    intro ch hch
    rcases List.mem_append.mp hch with h1 | h2
    · rw [List.eq_of_mem_replicate h1]; decide
    · exact mem_natToChars_isDigit h2
  rw [if_pos hall, List.foldl_append, foldl_replicate_zero, foldl_natToChars]

/-- Helper: numbers below 1000 print with at most three digits. -/
lemma natToChars_length_le {m : ℕ} (h : m < 1000) :
    (natToChars m).length ≤ 3 := by
  unfold natToChars
  by_cases h0 : m = 0
  · simp [h0]
  · rw [if_neg h0]
    simp only [List.length_reverse, List.length_map]
    rw [Nat.digits_len 10 m (by norm_num) h0]
    have h3 : m < 10 ^ 3 := lt_of_lt_of_le h (by norm_num)
    have := Nat.log_lt_of_lt_pow h0 h3
    omega

/-- Helper: the padded fractional part has exactly three characters. -/
lemma padZeros3_length {cs : List Char} (h : cs.length ≤ 3) :
    (padZeros3 cs).length = 3 := by
  simp only [padZeros3, List.length_append, List.length_replicate]
  omega

/-- Helper: characters of a printed integer are the sign or digits. -/
lemma mem_intToChars {ch : Char} {i : ℤ} (h : ch ∈ intToChars i) :
    ch = '-' ∨ ch.isDigit = true := by
  unfold intToChars at h
  by_cases hneg : i < 0
  · rw [if_pos hneg] at h
    rcases List.mem_cons.mp h with h1 | h2
    · exact .inl h1
    · exact .inr (mem_natToChars_isDigit h2)
  · rw [if_neg hneg] at h
    exact .inr (mem_natToChars_isDigit h)

/-- Helper: characters of a `%.3f`-printed value are the sign, the point
or digits. -/
lemma mem_fmtF3 {ch : Char} {q : ℚ} (h : ch ∈ fmtF3 q) :
    ch = '-' ∨ ch = '.' ∨ ch.isDigit = true := by
  unfold fmtF3 at h
  simp only [List.mem_append] at h
  rcases h with (h | h) | h
  · by_cases hneg : goRound (q * 1000) < 0
    · rw [if_pos hneg] at h
      simp only [List.mem_singleton] at h
      exact .inl h
    · rw [if_neg hneg] at h
      exact absurd h (List.not_mem_nil ch)
  · exact .inr (.inr (mem_natToChars_isDigit h))
  · rcases List.mem_cons.mp h with h1 | h2
    · exact .inr (.inl h1)
    · unfold padZeros3 at h2
      rcases List.mem_append.mp h2 with h3 | h4
      · rw [List.eq_of_mem_replicate h3]
        exact .inr (.inr (by decide))
      · exact .inr (.inr (mem_natToChars_isDigit h4))

/-- Helper: no space occurs in a printed integer. -/
lemma space_not_mem_intToChars (i : ℤ) : ' ' ∉ intToChars i := by
  intro h
  rcases mem_intToChars h with h1 | h1
  · exact absurd h1 (by decide)
  · exact absurd h1 (by decide)

/-- Helper: no newline occurs in a printed integer. -/
lemma newline_not_mem_intToChars (i : ℤ) : '\n' ∉ intToChars i := by
  intro h
  rcases mem_intToChars h with h1 | h1
  · exact absurd h1 (by decide)
  · exact absurd h1 (by decide)

/-- Helper: no space occurs in a `%.3f`-printed value. -/
lemma space_not_mem_fmtF3 (q : ℚ) : ' ' ∉ fmtF3 q := by
  intro h
  rcases mem_fmtF3 h with h1 | h1 | h1
  · exact absurd h1 (by decide)
  · exact absurd h1 (by decide)
  · exact absurd h1 (by decide)

/-- Helper: no newline occurs in a `%.3f`-printed value. -/
lemma newline_not_mem_fmtF3 (q : ℚ) : '\n' ∉ fmtF3 q := by
  intro h
  rcases mem_fmtF3 h with h1 | h1 | h1
  · exact absurd h1 (by decide)
  · exact absurd h1 (by decide)
  · exact absurd h1 (by decide)

/-- Helper: a `key value` line contains no newline when neither part
does. -/
lemma newline_not_mem_line {key value : List Char} (hk : '\n' ∉ key)
    (hv : '\n' ∉ value) : '\n' ∉ key ++ ' ' :: value := by
  intro hm
  rcases List.mem_append.mp hm with h1 | h2
  · exact hk h1
  · rcases List.mem_cons.mp h2 with h3 | h4
    · exact absurd h3 (by decide)
    · exact hv h4

/-- Helper: a Lean string is recovered from its character list. -/
lemma stringMk_toList (s : String) : String.mk s.toList = s := by
  cases s; rfl

/-- Helper: unfolding equation of `parseInt` on a non-empty string. -/
lemma parseInt_cons (c : Char) (rest : List Char) :
    parseInt (c :: rest)
      = if c = '-' then (charsToNat rest).map (fun n : ℕ => -(n : ℤ))
        else if c = '+' then (charsToNat rest).map (fun n : ℕ => (n : ℤ))
        else (charsToNat (c :: rest)).map (fun n : ℕ => (n : ℤ)) := rfl

/-- Helper: unfolding equation of `parseF3` on a non-empty string. -/
lemma parseF3_cons (c : Char) (rest : List Char) :
    parseF3 (c :: rest)
      = if c = '-' then (parseUnsignedF rest).map (fun q : ℚ => -q)
        else if c = '+' then parseUnsignedF rest
        else parseUnsignedF (c :: rest) := rfl

/-- Helper: `Atoi`-style parsing inverts `%d`-style printing of an
integer. -/
lemma parseInt_intToChars (i : ℤ) : parseInt (intToChars i) = some i := by
  unfold intToChars
  by_cases hneg : i < 0
  · rw [if_pos hneg, parseInt_cons, if_pos rfl, charsToNat_natToChars,
      Option.map_some']
    congr 1
    omega
  · rw [if_neg hneg]
    cases hnc : natToChars i.toNat with
    | nil => exact absurd hnc (natToChars_ne_nil _)
    | cons c rest =>
        have hcd : c.isDigit = true :=
          mem_natToChars_isDigit (hnc ▸ List.mem_cons_self c rest)
        have hc1 : ¬ c = '-' := by
          intro hc; rw [hc] at hcd; exact absurd hcd (by decide)
        have hc2 : ¬ c = '+' := by
          intro hc; rw [hc] at hcd; exact absurd hcd (by decide)
        rw [parseInt_cons, if_neg hc1, if_neg hc2, ← hnc,
          charsToNat_natToChars, Option.map_some']
        congr 1
        omega

/-- Helper: the unsigned decimal parse of `intpart.frac3` recovers
`a / 1000` from the digit strings `fmtF3` emits. -/
lemma parseUnsignedF_fmt (a : ℕ) :
    parseUnsignedF (natToChars (a / 1000) ++ '.'
        :: padZeros3 (natToChars (a % 1000)))
      = some ((a : ℚ) / 1000) := by
  have hip : '.' ∉ natToChars (a / 1000) := by
    intro h
    exact absurd (mem_natToChars_isDigit h) (by decide)
  have hfp : '.' ∉ padZeros3 (natToChars (a % 1000)) := by
    intro h
    unfold padZeros3 at h
    rcases List.mem_append.mp h with h1 | h2
    · have := List.eq_of_mem_replicate h1
      exact absurd this (by decide)
    · exact absurd (mem_natToChars_isDigit h2) (by decide)
  have hlen : (padZeros3 (natToChars (a % 1000))).length = 3 :=
    padZeros3_length (natToChars_length_le (Nat.mod_lt a (by norm_num)))
  have hsplit : splitChar '.' (natToChars (a / 1000) ++ '.'
      :: padZeros3 (natToChars (a % 1000)))
      = [natToChars (a / 1000), padZeros3 (natToChars (a % 1000))] := by
    rw [splitChar_append hip, splitChar_not_mem hfp]
  unfold parseUnsignedF
  rw [hsplit]
  show ((charsToNat (natToChars (a / 1000))).bind fun i : ℕ =>
      (charsToNat (padZeros3 (natToChars (a % 1000)))).map fun f : ℕ =>
        (i : ℚ) + (f : ℚ) / (10 : ℚ) ^ (padZeros3 (natToChars (a % 1000))).length)
    = some ((a : ℚ) / 1000)
  rw [charsToNat_natToChars, charsToNat_padZeros3, Option.some_bind,
    Option.map_some', hlen]
  congr 1
  have hmod := Nat.div_add_mod a 1000
  have hcast : ((a : ℚ)) = 1000 * ((a / 1000 : ℕ) : ℚ) + ((a % 1000 : ℕ) : ℚ) := by
    exact_mod_cast hmod.symm
  rw [hcast]
  norm_num
  ring

/-- Helper: parsing inverts `%.3f` printing, recovering the value rounded
to three decimal places. -/
lemma parseF3_fmt_core (a : ℕ) :
    parseF3 (natToChars (a / 1000) ++ '.' :: padZeros3 (natToChars (a % 1000)))
      = some ((a : ℚ) / 1000) := by
  cases hnc : natToChars (a / 1000) with
  | nil => exact absurd hnc (natToChars_ne_nil _)
  | cons c rest =>
      have hcd : c.isDigit = true :=
        mem_natToChars_isDigit (hnc ▸ List.mem_cons_self c rest)
      have hc1 : ¬ c = '-' := by
        intro hc; rw [hc] at hcd; exact absurd hcd (by decide)
      have hc2 : ¬ c = '+' := by
        intro hc; rw [hc] at hcd; exact absurd hcd (by decide)
      rw [List.cons_append]
      rw [parseF3_cons]
      rw [if_neg hc1]
      rw [if_neg hc2]
      rw [← List.cons_append]
      rw [← hnc]
      rw [parseUnsignedF_fmt]

/-- Helper: parsing inverts `%.3f` printing, recovering the value rounded
to three decimal places. -/
lemma parseF3_fmtF3 (q : ℚ) : parseF3 (fmtF3 q) = some (round3 q) := by
  simp only [fmtF3, round3]
  by_cases hneg : goRound (q * 1000) < 0
  · rw [if_pos hneg]
    rw [List.singleton_append, List.cons_append]
    rw [parseF3_cons, if_pos rfl, parseUnsignedF_fmt, Option.map_some']
    congr 1
    have ha : ((goRound (q * 1000)).natAbs : ℚ)
        = -((goRound (q * 1000) : ℤ) : ℚ) := by
      rw [Int.cast_natAbs, abs_of_neg hneg, Int.cast_neg]
    rw [ha]
    ring
  · rw [if_neg hneg, List.nil_append, parseF3_fmt_core]
    congr 1
    have ha : ((goRound (q * 1000)).natAbs : ℚ)
        = ((goRound (q * 1000) : ℤ) : ℚ) := by
      rw [Int.cast_natAbs, abs_of_nonneg (not_lt.mp hneg)]
    rw [ha]

/-- Helper: `ReadStats` on the emitted `Site:` line stores the URL. -/
lemma readStatsLine_site (s : Stats) (value : List Char) (hv : ' ' ∉ value) :
    readStatsLine s ("Site:".toList ++ ' ' :: value)
      = .ok { s with URL := String.mk value } := by
  have hs : splitChar ' ' ("Site:".toList ++ ' ' :: value)
      = ["Site:".toList, value] := by
    rw [splitChar_append (by decide), splitChar_not_mem hv]
  simp only [readStatsLine, hs]
  simp +decide

/-- Helper: `ReadStats` on the emitted `Requests:` line parses the count
back exactly. -/
lemma readStatsLine_requests (s : Stats) (v : ℤ) :
    readStatsLine s ("Requests:".toList ++ ' ' :: intToChars v)
      = .ok { s with Requests := v } := by
  have hs : splitChar ' ' ("Requests:".toList ++ ' ' :: intToChars v)
      = ["Requests:".toList, intToChars v] := by
    rw [splitChar_append (by decide),
      splitChar_not_mem (space_not_mem_intToChars v)]
  simp only [readStatsLine, hs]
  simp +decide [parseInt_intToChars]

/-- Helper: `ReadStats` on the emitted `Successes:` line parses the count
back exactly. -/
lemma readStatsLine_successes (s : Stats) (v : ℤ) :
    readStatsLine s ("Successes:".toList ++ ' ' :: intToChars v)
      = .ok { s with Successes := v } := by
  have hs : splitChar ' ' ("Successes:".toList ++ ' ' :: intToChars v)
      = ["Successes:".toList, intToChars v] := by
    rw [splitChar_append (by decide),
      splitChar_not_mem (space_not_mem_intToChars v)]
  simp only [readStatsLine, hs]
  simp +decide [parseInt_intToChars]

/-- Helper: `ReadStats` on the emitted `Failures:` line parses the count
back exactly. -/
lemma readStatsLine_failures (s : Stats) (v : ℤ) :
    readStatsLine s ("Failures:".toList ++ ' ' :: intToChars v)
      = .ok { s with Failures := v } := by
  have hs : splitChar ' ' ("Failures:".toList ++ ' ' :: intToChars v)
      = ["Failures:".toList, intToChars v] := by
    rw [splitChar_append (by decide),
      splitChar_not_mem (space_not_mem_intToChars v)]
  simp only [readStatsLine, hs]
  simp +decide [parseInt_intToChars]

/-- Helper: `ReadStats` on the emitted `P50(ms):` line recovers the
3-decimal rounding of the latency value. -/
lemma readStatsLine_p50 (s : Stats) (q : ℚ) :
    readStatsLine s ("P50(ms):".toList ++ ' ' :: fmtF3 q)
      = .ok { s with P50 := round3 q } := by
  have hs : splitChar ' ' ("P50(ms):".toList ++ ' ' :: fmtF3 q)
      = ["P50(ms):".toList, fmtF3 q] := by
    rw [splitChar_append (by decide), splitChar_not_mem (space_not_mem_fmtF3 q)]
  simp only [readStatsLine, hs]
  simp +decide [parseF3_fmtF3]

/-- Helper: `ReadStats` on the emitted `P90(ms):` line recovers the
3-decimal rounding of the latency value. -/
lemma readStatsLine_p90 (s : Stats) (q : ℚ) :
    readStatsLine s ("P90(ms):".toList ++ ' ' :: fmtF3 q)
      = .ok { s with P90 := round3 q } := by
  have hs : splitChar ' ' ("P90(ms):".toList ++ ' ' :: fmtF3 q)
      = ["P90(ms):".toList, fmtF3 q] := by
    rw [splitChar_append (by decide), splitChar_not_mem (space_not_mem_fmtF3 q)]
  simp only [readStatsLine, hs]
  simp +decide [parseF3_fmtF3]

/-- Helper: `ReadStats` on the emitted `P99(ms):` line recovers the
3-decimal rounding of the latency value. -/
lemma readStatsLine_p99 (s : Stats) (q : ℚ) :
    readStatsLine s ("P99(ms):".toList ++ ' ' :: fmtF3 q)
      = .ok { s with P99 := round3 q } := by
  have hs : splitChar ' ' ("P99(ms):".toList ++ ' ' :: fmtF3 q)
      = ["P99(ms):".toList, fmtF3 q] := by
    rw [splitChar_append (by decide), splitChar_not_mem (space_not_mem_fmtF3 q)]
  simp only [readStatsLine, hs]
  simp +decide [parseF3_fmtF3]

/-- C1 (counterexample): in the final `Tester.DoRequest` (`src/bench.go`
lines 549-576), a transport-level failure records exactly one failure but
ZERO latency samples — `RecordTime` (line 568) runs only after the
`err != nil` early return (lines 563-567).  This refutes, at the concrete
input of a single transport failure on a fresh tester, the claim that such
an attempt always yields exactly one latency sample. -/
theorem c1_transport_failure_counterexample :
    (doRequestStep (.transportErr 1) initTester).1.stats.Failures = 1 ∧
    ¬ (doRequestStep (.transportErr 1) initTester).1.executionsTime.length = 1 := by
  decide

/-- C1 (amended): in the final `src/bench.go` executor a latency sample is
appended only when the transport call returns without error: a transport
failure leaves the latency recorder unchanged while recording exactly one
request and one failure, and any returned response (whatever its status)
appends exactly one sample.  In the earlier iteration
(`src/simplebench.go` lines 186-212) `RecordTime` runs before the error
check, so there a transport failure does append exactly one time-to-failure
sample along with its single failure. -/
theorem c1_amended_transport_failure_latency (e : ℚ) (code : ℤ)
    (t : TesterState) :
    ((doRequestStep (.transportErr e) t).1.executionsTime = t.executionsTime ∧
     (doRequestStep (.transportErr e) t).1.stats.Failures = t.stats.Failures + 1 ∧
     (doRequestStep (.transportErr e) t).1.stats.Requests = t.stats.Requests + 1) ∧
    (doRequestStep (.response code e) t).1.executionsTime
      = t.executionsTime ++ [e] ∧
    ((doRequestSB (.transportErr e) t).executionsTime
      = t.executionsTime ++ [e] ∧
     (doRequestSB (.transportErr e) t).stats.Failures = t.stats.Failures + 1) := by
  refine ⟨⟨rfl, rfl, rfl⟩, ?_, rfl, rfl⟩
  by_cases h : code = 200 <;> simp [doRequestStep, h]

/-- C2: every completed request attempt increments the requests counter by
exactly one and exactly one of the successes/failures counters by exactly
one; hence after any sequence of completed attempts (any interleaving of
the atomic increments is equivalent to some such sequence) the invariant
`Requests = Successes + Failures` holds whenever it held initially — in
particular starting from the zero counters of a fresh run. -/
theorem c2_requests_eq_successes_plus_failures (rs : List HTTPResult)
    (t : TesterState)
    (h : t.stats.Requests = t.stats.Successes + t.stats.Failures) :
    (∀ r u, (doRequestStep r u).1.stats.Requests = u.stats.Requests + 1 ∧
            (doRequestStep r u).1.stats.Successes
              + (doRequestStep r u).1.stats.Failures
              = u.stats.Successes + u.stats.Failures + 1) ∧
    (recordOutcomes rs t).stats.Requests
      = (recordOutcomes rs t).stats.Successes
        + (recordOutcomes rs t).stats.Failures := by
  refine ⟨doRequestStep_counts, ?_⟩
  induction rs generalizing t with
  | nil => exact h
  | cons r rs ih =>
      have hc := doRequestStep_counts r t
      have hnext : (doRequestStep r t).1.stats.Requests
          = (doRequestStep r t).1.stats.Successes
            + (doRequestStep r t).1.stats.Failures := by omega
      exact ih _ hnext

/-- Witness for C2 at a concrete mixed run: a build error, a transport
error, a 200 response and a 404 response, starting from a fresh tester. -/
theorem c2_witness :
    (initTester.stats.Requests
      = initTester.stats.Successes + initTester.stats.Failures) ∧
    ((∀ r u, (doRequestStep r u).1.stats.Requests = u.stats.Requests + 1 ∧
            (doRequestStep r u).1.stats.Successes
              + (doRequestStep r u).1.stats.Failures
              = u.stats.Successes + u.stats.Failures + 1) ∧
     (recordOutcomes [.buildErr, .transportErr 2, .response 200 3,
        .response 404 4] initTester).stats.Requests
      = (recordOutcomes [.buildErr, .transportErr 2, .response 200 3,
          .response 404 4] initTester).stats.Successes
        + (recordOutcomes [.buildErr, .transportErr 2, .response 200 3,
            .response 404 4] initTester).stats.Failures) :=
  ⟨by decide, c2_requests_eq_successes_plus_failures _ _ (by decide)⟩

/-- C3: on a non-empty sample list `CalculatePercentiles` produces an
ascending reordering of the samples and selects, for each target percentile
p ∈ {0.50, 0.90, 0.99}, the entry of the sorted list at the nearest-rank
index `round(n*p) - 1` (no interpolation); on the sample set
{5, 6, 7, 8, 10, 11, 13} it yields P50 = 8, P90 = 11, P99 = 13. -/
theorem c3_percentile_selection (url : String) (times : List ℚ)
    (stats : Stats) (h : times ≠ []) :
    ((calculatePercentiles url times stats).1.Sorted (· ≤ ·) ∧
     List.Perm (calculatePercentiles url times stats).1 times ∧
     (calculatePercentiles url times stats).2.P50
       = (calculatePercentiles url times stats).1.getD
           (pIdx times.length (1/2)).toNat 0 ∧
     (calculatePercentiles url times stats).2.P90
       = (calculatePercentiles url times stats).1.getD
           (pIdx times.length (9/10)).toNat 0 ∧
     (calculatePercentiles url times stats).2.P99
       = (calculatePercentiles url times stats).1.getD
           (pIdx times.length (99/100)).toNat 0) ∧
    ((calculatePercentiles "u" [5, 6, 7, 8, 10, 11, 13] zeroStats).2.P50 = 8 ∧
     (calculatePercentiles "u" [5, 6, 7, 8, 10, 11, 13] zeroStats).2.P90 = 11 ∧
     (calculatePercentiles "u" [5, 6, 7, 8, 10, 11, 13] zeroStats).2.P99 = 13) := by
  refine ⟨?_, ?_, ?_, ?_⟩
  · rw [calcPerc_eq url times stats h]
    exact ⟨List.sorted_insertionSort _ _, List.perm_insertionSort _ _,
      rfl, rfl, rfl⟩
  all_goals
    rw [calcPerc_eq _ _ _ (by decide)]
    norm_num [pIdx, goRound, List.insertionSort, List.orderedInsert,
      List.getD, List.get?]
    decide

/-- Witness for C3 at the sample set named by the claim. -/
theorem c3_witness :
    ([5, 6, 7, 8, 10, 11, 13] : List ℚ) ≠ [] ∧
    (((calculatePercentiles "u" [5, 6, 7, 8, 10, 11, 13] zeroStats).1.Sorted (· ≤ ·) ∧
      List.Perm (calculatePercentiles "u" [5, 6, 7, 8, 10, 11, 13] zeroStats).1
        [5, 6, 7, 8, 10, 11, 13] ∧
      (calculatePercentiles "u" [5, 6, 7, 8, 10, 11, 13] zeroStats).2.P50
        = (calculatePercentiles "u" [5, 6, 7, 8, 10, 11, 13] zeroStats).1.getD
            (pIdx ([5, 6, 7, 8, 10, 11, 13] : List ℚ).length (1/2)).toNat 0 ∧
      (calculatePercentiles "u" [5, 6, 7, 8, 10, 11, 13] zeroStats).2.P90
        = (calculatePercentiles "u" [5, 6, 7, 8, 10, 11, 13] zeroStats).1.getD
            (pIdx ([5, 6, 7, 8, 10, 11, 13] : List ℚ).length (9/10)).toNat 0 ∧
      (calculatePercentiles "u" [5, 6, 7, 8, 10, 11, 13] zeroStats).2.P99
        = (calculatePercentiles "u" [5, 6, 7, 8, 10, 11, 13] zeroStats).1.getD
            (pIdx ([5, 6, 7, 8, 10, 11, 13] : List ℚ).length (99/100)).toNat 0) ∧
     ((calculatePercentiles "u" [5, 6, 7, 8, 10, 11, 13] zeroStats).2.P50 = 8 ∧
      (calculatePercentiles "u" [5, 6, 7, 8, 10, 11, 13] zeroStats).2.P90 = 11 ∧
      (calculatePercentiles "u" [5, 6, 7, 8, 10, 11, 13] zeroStats).2.P99 = 13)) :=
  ⟨by decide, c3_percentile_selection "u" _ zeroStats (by decide)⟩

/-- C4 (counterexample): the final percentile engine
(`Tester.CalculatePercentiles`, `src/bench.go` lines 693-697) does NOT
surface any error on an empty sample collection: it silently returns,
leaving the zero-value statistics record unchanged — its signature has no
error result at all, and the declared `ErrTimeNotRecorded` is never
returned by this iteration. -/
theorem c4_empty_samples_counterexample :
    calculatePercentiles "http://fake.url" [] zeroStats = ([], zeroStats) := rfl

/-- C4 (amended): the earlier iteration's `Tester.SetMetrics`
(`src/unnamed/part_004` lines 245-249) surfaces the "no execution time
recorded" error (`ErrTimeNotRecorded`) on an empty sample collection,
while the final `CalculatePercentiles` (`src/bench.go` lines 693-697)
silently returns with the statistics record unchanged; neither crashes. -/
theorem c4_amended_empty_samples (url : String) (s : Stats) (s4 : StatsP4) :
    setMetrics [] s4 = .error "no execution time recorded" ∧
    calculatePercentiles url [] s = ([], s) := ⟨rfl, rfl⟩

/-- C5 (code bug, evaluation at the failing input): with request count
N = 2, concurrency C = 1 and a target refusing every connection, the single
worker of the final `Tester.Run` (`src/bench.go` lines 579-611) executes
only ONE attempt: the `return` inside `DoRequest`'s `for range t.work` loop
(line 566) exits the whole loop on the first failure, so the second queued
unit is never attempted, while `Run`'s wait group only counts workers and
returns anyway.  The all-success contrast shows both units are attempted
when nothing fails. -/
theorem c5_worker_stops_after_failure :
    (doRequest [.transportErr 1, .transportErr 1] initTester).stats.Requests = 1 ∧
    (doRequest [.response 200 1, .response 200 1] initTester).stats.Requests = 2 := by
  decide

/-- C6: the comparator computes, per metric, `delta = new - old` and
`percentage = delta / old * 100`; on old = {P50:100, P90:110, P99:120} and
new = {P50:99, P90:100, P99:101} the deltas are -1, -10, -19 and the
percentages, displayed to 2 decimal places as by the `%.2f` verbs, are
-1.00, -9.09 and -15.83. -/
theorem c6_comparator_deltas (s1 s2 : Stats) :
    (compareDeltas s1 s2
      = [ (s2.P50 - s1.P50, (s2.P50 - s1.P50) / s1.P50 * 100),
          (s2.P90 - s1.P90, (s2.P90 - s1.P90) / s1.P90 * 100),
          (s2.P99 - s1.P99, (s2.P99 - s1.P99) / s1.P99 * 100) ]) ∧
    compareDeltas ⟨"u", 100, 110, 120, 0, 0, 0⟩ ⟨"u", 99, 100, 101, 0, 0, 0⟩
      = [(-1, -1), (-10, -100/11), (-19, -95/6)] ∧
    round2 (-1 : ℚ) = -100/100 ∧
    round2 (-100/11 : ℚ) = -909/100 ∧
    round2 (-95/6 : ℚ) = -1583/100 := by
  refine ⟨rfl, ?_, ?_, ?_, ?_⟩ <;>
    norm_num [compareDeltas, round2, goRound]

/-- C7 (counterexample): the final `NewTester` (`src/bench.go` lines
327-363) validates only `u.Host == ""` (line 355) and never checks the
parsed scheme, so a configuration whose URL lacks a scheme but has a host
is accepted: Go's `url.Parse("//example.com")` yields `Scheme == ""` and
`Host == "example.com"`, and the constructor succeeds on it, refuting the
claim that every URL lacking a scheme is rejected. -/
theorem c7_schemeless_url_counterexample :
    (newTesterCheck ⟨"", "example.com", 1, false, false⟩).1 = .ok () := rfl

/-- C7 (amended): a configuration whose parsed URL host is empty, or whose
request count is ≤ 0, or which passes a nil writer to
`WithStdout`/`WithStderr`, makes the constructor return an error, and the
constructor performs zero transport calls on every path (nothing is
attempted); a URL lacking only the scheme but carrying a host (such as
`//example.com`) is, however, accepted. -/
theorem c7_amended_invalid_config_rejected (c : Config)
    (h : c.host = "" ∨ c.requests ≤ 0 ∨ c.stdoutNil = true ∨ c.stderrNil = true) :
    (∃ e, (newTesterCheck c).1 = .error e) ∧ (newTesterCheck c).2 = 0 := by
  unfold newTesterCheck
  split_ifs with h1 h2 h3 h4
  · exact ⟨⟨_, rfl⟩, rfl⟩
  · exact ⟨⟨_, rfl⟩, rfl⟩
  · exact ⟨⟨_, rfl⟩, rfl⟩
  · exact ⟨⟨_, rfl⟩, rfl⟩
  · exfalso
    simp only [Bool.not_eq_true] at h1 h2
    rcases h with h | h | h | h
    · exact h3 h
    · omega
    · rw [h1] at h; exact Bool.false_ne_true h
    · rw [h2] at h; exact Bool.false_ne_true h

/-- Witness for C7 (amended) at the empty-host configuration produced by
the URL "bogus-no-host://" with one request and non-nil writers. -/
theorem c7_witness :
    ((Config.mk "bogus-no-host" "" 1 false false).host = ""
      ∨ (Config.mk "bogus-no-host" "" 1 false false).requests ≤ 0
      ∨ (Config.mk "bogus-no-host" "" 1 false false).stdoutNil = true
      ∨ (Config.mk "bogus-no-host" "" 1 false false).stderrNil = true) ∧
    ((∃ e, (newTesterCheck ⟨"bogus-no-host", "", 1, false, false⟩).1 = .error e) ∧
     (newTesterCheck ⟨"bogus-no-host", "", 1, false, false⟩).2 = 0) :=
  ⟨by decide, c7_amended_invalid_config_rejected _ (by decide)⟩

/-- C8: writing a statistics record whose URL contains no whitespace to
the persisted textual format (`Stats.String`) and reading it back
(`ReadStats`) reproduces the original record: the URL and the integer
request/success/failure counts exactly, and the P50/P90/P99 latency fields
to the emitted 3-decimal-place precision (`round3`). -/
theorem c8_stats_roundtrip (s : Stats)
    (h : ∀ ch ∈ s.URL.toList, ch ≠ ' ' ∧ ch ≠ '\n' ∧ ch ≠ '\r') :
    readStats (statsString s)
      = .ok { s with P50 := round3 s.P50, P90 := round3 s.P90,
                     P99 := round3 s.P99 } := by
  have hURLs : ' ' ∉ s.URL.toList := fun hm => ((h _ hm).1) rfl
  have hURLn : '\n' ∉ s.URL.toList := fun hm => ((h _ hm).2.1) rfl
  have hsplit : splitChar '\n' (statsString s)
      = [ "Site:".toList ++ ' ' :: s.URL.toList,
          "Requests:".toList ++ ' ' :: intToChars s.Requests,
          "Successes:".toList ++ ' ' :: intToChars s.Successes,
          "Failures:".toList ++ ' ' :: intToChars s.Failures,
          "P50(ms):".toList ++ ' ' :: fmtF3 s.P50,
          "P90(ms):".toList ++ ' ' :: fmtF3 s.P90,
          "P99(ms):".toList ++ ' ' :: fmtF3 s.P99 ] := by
    unfold statsString
    apply splitChar_joinChar _ (by simp)
    intro l hl
    simp only [List.mem_cons, List.not_mem_nil, or_false] at hl
    rcases hl with rfl | rfl | rfl | rfl | rfl | rfl | rfl
    · exact newline_not_mem_line (by decide) hURLn
    · exact newline_not_mem_line (by decide) (newline_not_mem_intToChars _)
    · exact newline_not_mem_line (by decide) (newline_not_mem_intToChars _)
    · exact newline_not_mem_line (by decide) (newline_not_mem_intToChars _)
    · exact newline_not_mem_line (by decide) (newline_not_mem_fmtF3 _)
    · exact newline_not_mem_line (by decide) (newline_not_mem_fmtF3 _)
    · exact newline_not_mem_line (by decide) (newline_not_mem_fmtF3 _)
  unfold readStats
  rw [hsplit]
  simp only [readStatsLines, readStatsLine_site _ _ hURLs,
    readStatsLine_requests, readStatsLine_successes, readStatsLine_failures,
    readStatsLine_p50, readStatsLine_p90, readStatsLine_p99]
  rw [stringMk_toList]

/-- Witness for C8 at the whitespace-free record
{URL: http://fake.url, Requests: 20, Successes: 18, Failures: 2,
P50: 100.123, P90: 150, P99: 198.465}. -/
theorem c8_witness :
    (∀ ch ∈ (Stats.mk "http://fake.url" (100123/1000) 150 (198465/1000)
        2 20 18).URL.toList, ch ≠ ' ' ∧ ch ≠ '\n' ∧ ch ≠ '\r') ∧
    readStats (statsString
        (Stats.mk "http://fake.url" (100123/1000) 150 (198465/1000) 2 20 18))
      = .ok { (Stats.mk "http://fake.url" (100123/1000) 150 (198465/1000)
                2 20 18) with
              P50 := round3 (Stats.mk "http://fake.url" (100123/1000) 150
                (198465/1000) 2 20 18).P50,
              P90 := round3 (Stats.mk "http://fake.url" (100123/1000) 150
                (198465/1000) 2 20 18).P90,
              P99 := round3 (Stats.mk "http://fake.url" (100123/1000) 150
                (198465/1000) 2 20 18).P99 } :=
  ⟨by decide, c8_stats_roundtrip _ (by decide)⟩

/-- C9: for every sample count n ≥ 1 and each of the three fixed
percentiles, the index `round(n*p) - 1` computed by the percentile engine
satisfies `0 ≤ index ≤ n - 1`, so the indexing into the sorted sample list
never goes out of range (for n = 1 every index resolves to 0). -/
theorem c9_percentile_index_in_range (n : ℕ) (h : 1 ≤ n) :
    (0 ≤ pIdx n (1/2) ∧ pIdx n (1/2) ≤ (n : ℤ) - 1) ∧
    (0 ≤ pIdx n (9/10) ∧ pIdx n (9/10) ≤ (n : ℤ) - 1) ∧
    (0 ≤ pIdx n (99/100) ∧ pIdx n (99/100) ≤ (n : ℤ) - 1) :=
  ⟨pIdx_bounds h (by norm_num) (by norm_num),
   pIdx_bounds h (by norm_num) (by norm_num),
   pIdx_bounds h (by norm_num) (by norm_num)⟩

/-- Witness for C9 at n = 1: all three indices resolve to 0. -/
theorem c9_witness :
    1 ≤ 1 ∧
    ((0 ≤ pIdx 1 (1/2) ∧ pIdx 1 (1/2) ≤ (1 : ℤ) - 1) ∧
     (0 ≤ pIdx 1 (9/10) ∧ pIdx 1 (9/10) ≤ (1 : ℤ) - 1) ∧
     (0 ≤ pIdx 1 (99/100) ∧ pIdx 1 (99/100) ≤ (1 : ℤ) - 1)) :=
  ⟨by decide, c9_percentile_index_in_range 1 (by decide)⟩

/-- C10: on a non-empty sample list `CalculatePercentiles` replaces the
recorder's contents with an ascending permutation of the same multiset
(same length, same elements), leaves the `Requests`, `Successes` and
`Failures` counters unchanged, and writes only the P50/P90/P99 and URL
fields of the statistics record. -/
theorem c10_frame_permutation (url : String) (times : List ℚ)
    (stats : Stats) (h : times ≠ []) :
    List.Perm (calculatePercentiles url times stats).1 times ∧
    (calculatePercentiles url times stats).1.length = times.length ∧
    (calculatePercentiles url times stats).1.Sorted (· ≤ ·) ∧
    (calculatePercentiles url times stats).2.Requests = stats.Requests ∧
    (calculatePercentiles url times stats).2.Successes = stats.Successes ∧
    (calculatePercentiles url times stats).2.Failures = stats.Failures ∧
    (calculatePercentiles url times stats).2.URL = url := by
  rw [calcPerc_eq url times stats h]
  exact ⟨List.perm_insertionSort _ _,
    (List.perm_insertionSort _ _).length_eq,
    List.sorted_insertionSort _ _, rfl, rfl, rfl, rfl⟩

/-- Witness for C10 at the unsorted two-sample list [2, 1]. -/
theorem c10_witness :
    ([2, 1] : List ℚ) ≠ [] ∧
    (List.Perm (calculatePercentiles "u" [2, 1] zeroStats).1 [2, 1] ∧
     (calculatePercentiles "u" [2, 1] zeroStats).1.length
       = ([2, 1] : List ℚ).length ∧
     (calculatePercentiles "u" [2, 1] zeroStats).1.Sorted (· ≤ ·) ∧
     (calculatePercentiles "u" [2, 1] zeroStats).2.Requests
       = zeroStats.Requests ∧
     (calculatePercentiles "u" [2, 1] zeroStats).2.Successes
       = zeroStats.Successes ∧
     (calculatePercentiles "u" [2, 1] zeroStats).2.Failures
       = zeroStats.Failures ∧
     (calculatePercentiles "u" [2, 1] zeroStats).2.URL = "u") :=
  ⟨by decide, c10_frame_permutation "u" [2, 1] zeroStats (by decide)⟩

end Bench
